import Mathlib

/-!
Verification of the Concept Chimera vector-store engine (src/app.py,
src/make_light_dict.py) against its natural-language specification.

The development shallowly embeds the two sides of the engine:

* the load path `load_model` (src/app.py lines 171-195): chunk reassembly of
  the split `.npy` matrix file plus the missing-store check, modelled as a
  function over an explicit filesystem;
* the query path `find_chimera` (src/app.py lines 198-227): vocabulary
  membership checks, the `most_similar(topn=5)` library call, filtering of the
  two input tokens, and the `(result_word, similar_words[:3])` return shape.

The gensim library internals (`KeyedVectors.load`, `most_similar`) are not
part of the repository; where their behaviour matters they are modelled from
the spec (sections 4.3 and 4.4), and each such definition says so in its doc
comment.  Everything else is translated directly from src/app.py.
-/

/-! ### Filesystem model and the load path -/

/-- A flat filesystem: an association list from file name to file content
(content as a list of byte values).  `open(name, "wb")` is modelled by consing
a new binding, which shadows any previous one under `lookup`. -/
structure FS where
  files : List (String × List Nat)
deriving DecidableEq

/-- Reading a file: first binding for the name, as `os.path.exists` /
`open(name, "rb")` see it. -/
def FS.look (fs : FS) (n : String) : Option (List Nat) :=
  fs.files.lookup n

/-- Writing a file: `open(name, "wb")` followed by writing `v`. -/
def FS.write (fs : FS) (n : String) (v : List Nat) : FS :=
  ⟨(n, v) :: fs.files⟩

/-- The constant `model_path = "chimera_full.kv"` (src/app.py line 174). -/
def modelPath : String := "chimera_full.kv"

/-- The constant `npy_path = model_path + ".vectors.npy"` (src/app.py line 175). -/
def npyPath : String := modelPath ++ ".vectors.npy"

/-- The constant `parts_prefix = npy_path + ".part-"` (src/app.py line 176). -/
def partsPre : String := npyPath ++ ".part-"

/-- Python's string order: codepoint-lexicographic, i.e. the order of the
underlying character lists. -/
def strLe (s t : String) : Prop := s.data ≤ t.data

instance : DecidableRel strLe :=
  fun s t => inferInstanceAs (Decidable (s.data ≤ t.data))

/-- Python's `str.startswith`: the pattern's characters lead the string's. -/
def startsWithB (s p : String) : Bool := p.data.isPrefixOf s.data

/-- The fragment discovery `sorted(glob.glob(f"{parts_prefix}*"))` (src/app.py
line 181): the names
of the files whose name starts with `parts_prefix`, sorted in Python's string
order. -/
def fragNames (fs : FS) : List String :=
  ((fs.files.map Prod.fst).filter (fun n => startsWithB n partsPre)).insertionSort strLe

/-- Reading `infile.read()` for a fragment file (src/app.py line 187). -/
def readBytes (fs : FS) (n : String) : List Nat :=
  (fs.look n).getD []

/-- The bytes written by the reassembly loop over a list of fragment names:
their contents concatenated in list order (src/app.py lines 184-187). -/
def catBytes (fs : FS) (names : List String) : List Nat :=
  names.flatMap (readBytes fs)

/-- The reassembly step of `load_model` (src/app.py lines 179-188), with an
explicit interruption point: the run writes the fragments one after another
into the target file and stops after `k` of them.  `open(npy_path, "wb")`
creates/truncates the target first, so an interrupted run leaves the target
holding the concatenation of the first `k` fragments.  The complete run is
`reassemble` below. -/
def reassembleUpTo (fs : FS) (k : Nat) : FS :=
  if fs.look npyPath = none then
    let parts := fragNames fs
    if parts = [] then fs
    else fs.write npyPath (catBytes fs (parts.take k))
  else fs

/-- The complete reassembly step of `load_model` (src/app.py lines 179-188):
if the monolithic `.npy` file is absent and fragments exist, write the
concatenation of all fragments, in sorted name order, to the target path. -/
def reassemble (fs : FS) : FS :=
  reassembleUpTo fs (fragNames fs).length

/-- The ways loading can fail.  `missingStore` is the `st.error` + `st.stop`
path of src/app.py lines 190-192 (the spec's MissingStoreError);
`loadFailed` is the spec's LoadError (section 7), raised by the library load
when the store exists but its matrix cannot be opened. -/
inductive LoadFailure where
  | missingStore
  | loadFailed
deriving DecidableEq

/-- The function `load_model` (src/app.py lines 171-195) as a function of the
filesystem:
run reassembly, then fail with `missingStore` if `model_path` does not exist
(`st.error` + `st.stop`, after which no query is possible), otherwise hand the
store to the library load.  The final library step is modelled from the spec:
`KeyedVectors.load(model_path, mmap="r")` is outside the repository; per spec
sections 4.3 and 7 it needs the matrix file and fails with a LoadError
distinct from the missing-store failure when the matrix is absent. -/
def loadModel (fs : FS) : Except LoadFailure FS :=
  let fs1 := reassemble fs
  if fs1.look modelPath = none then .error .missingStore
  else if fs1.look npyPath = none then .error .loadFailed
  else .ok fs1

/-! ### Fragment naming convention -/

/-- An ASCII decimal digit character. -/
def digitChar (d : Nat) : Char :=
  match d with
  | 0 => '0' | 1 => '1' | 2 => '2' | 3 => '3' | 4 => '4'
  | 5 => '5' | 6 => '6' | 7 => '7' | 8 => '8' | _ => '9'

/-- The zero-padded three-digit ordinal `NNN` of spec section 6's
`<matrix-file>.part-<NNN>` convention. -/
def threeDigit (i : Nat) : String :=
  ⟨[digitChar (i / 100), digitChar (i / 10 % 10), digitChar (i % 10)]⟩

/-- The canonical name of the `i`-th fragment of the matrix file:
`chimera_full.kv.vectors.npy.part-NNN`. -/
def partName (i : Nat) : String :=
  partsPre ++ threeDigit i

/-! ### Query-side model -/

/-- The loaded model handle as `find_chimera` consumes it.  `vocab` is the
token list in row order (spec section 3: row index is the entry's position).
`score` abstracts the cosine-similarity ranking key of spec section 4.4 steps
2-3: `score a b w` is the similarity of row `w` against the sum of the rows of
`a` and `b`; it is kept abstract (rationals standing in for the float scores)
because the claims under proof concern ranking and filtering, not the numeric
formula.  `fails` models whether the library call inside the `try` block of
`find_chimera` raises an exception (src/app.py line 226 catches every
`Exception`); the library is outside the repository, so any failure of it is
represented by this flag. -/
structure Model where
  vocab : List String
  score : String → String → String → ℚ
  fails : Bool

/-- The ranking relation of spec sections 3 and 4.4: higher score first, ties
broken by the store's natural row order (smaller row index first). -/
def simRank (score : String → ℚ) (p q : Nat × String) : Prop :=
  score q.2 < score p.2 ∨ (score p.2 = score q.2 ∧ p.1 ≤ q.1)

instance (score : String → ℚ) : DecidableRel (simRank score) := by
  unfold simRank; infer_instance

/-- The vocabulary tagged with row indices, starting at `k`. -/
def withIdx : List String → Nat → List (Nat × String)
  | [], _ => []
  | w :: ws, k => (k, w) :: withIdx ws (k + 1)

/-- Modelled from the spec: `model.most_similar(positive=[a, b], topn=n)`
(gensim, outside the repository) as spec section 4.4 reframes it (steps 2-4
and section 9): rank every row of the store by descending similarity to the
target vector, ties broken by row order, and keep the first `topn` rows as
`(token, score)` pairs. -/
def mostSimilar (score : String → ℚ) (vocab : List String) (topn : Nat) :
    List (String × ℚ) :=
  (((withIdx vocab 0).insertionSort (simRank score)).take topn).map
    (fun p => (p.2, score p.2))

/-- The function `find_chimera` (src/app.py lines 198-227), translated clause
by clause:
the two vocabulary checks returning `(None, [])`; the `try` block whose
`except Exception` also returns `(None, [])`; the filter
`word != word_a and word != word_b` over the `topn=5` library results; and
`return filtered[0][0], filtered[:3]` when the filtered list is non-empty,
`(None, [])` otherwise. -/
def findChimera (m : Model) (a b : String) : Option String × List (String × ℚ) :=
  if a ∈ m.vocab then
    if b ∈ m.vocab then
      if m.fails then (none, [])
      else
        let filtered := (mostSimilar (m.score a b) m.vocab 5).filter
          (fun p => p.1 != a && p.1 != b)
        match filtered with
        | [] => (none, [])
        | p :: rest => (some p.1, (p :: rest).take 3)
    else (none, [])
  else (none, [])

/-! ### Load-path lemmas -/

lemma look_write_self (fs : FS) (n : String) (v : List Nat) :
    (fs.write n v).look n = some v := by
  simp [FS.look, FS.write, List.lookup]

lemma reassembleUpTo_skip (fs : FS) (k : Nat)
    (h : (fs.look npyPath).isSome) : reassembleUpTo fs k = fs := by
  unfold reassembleUpTo
  rw [if_neg]
  intro hc
  rw [hc] at h
  simp at h

lemma reassembleUpTo_write (fs : FS) (k : Nat)
    (hn : fs.look npyPath = none) (hfr : fragNames fs ≠ []) :
    reassembleUpTo fs k = fs.write npyPath (catBytes fs ((fragNames fs).take k)) := by
  unfold reassembleUpTo
  rw [if_pos hn, if_neg hfr]

/-! ### Concrete fixtures used by witnesses and counterexamples -/

/-- A store holding exactly the two fragments of spec example 3:
`matrix.part-000` with bytes `[1, 2]` and `matrix.part-001` with
bytes `[3, 4]`; no monolithic file. -/
def fsFrag : FS := ⟨[(partName 0, [1, 2]), (partName 1, [3, 4])]⟩

/-! ### C4: reassembly is idempotent -/

/-- C4.  Chunk reassembly is idempotent: when the monolithic `.npy` file
already exists the step leaves the filesystem untouched (the
`if not os.path.exists(npy_path)` guard of src/app.py line 179 skips the
whole block), and running the reassembly step twice always equals running it
once. -/
theorem reassembly_idempotent (fs : FS) :
    ((fs.look npyPath).isSome → reassemble fs = fs) ∧
    reassemble (reassemble fs) = reassemble fs := by
  constructor
  · intro h
    exact reassembleUpTo_skip fs _ h
  · by_cases h : (fs.look npyPath).isSome
    · rw [show reassemble fs = fs from reassembleUpTo_skip fs _ h]
      exact reassembleUpTo_skip fs _ h
    · have hn : fs.look npyPath = none := Option.not_isSome_iff_eq_none.mp h
      by_cases hfr : fragNames fs = []
      · have h1 : reassemble fs = fs := by
          unfold reassemble reassembleUpTo
          rw [if_pos hn]
          simp [hfr]
        rw [h1, h1]
      · have h2 : reassemble fs =
            fs.write npyPath (catBytes fs ((fragNames fs).take (fragNames fs).length)) :=
          reassembleUpTo_write fs _ hn hfr
        have h3 : ((reassemble fs).look npyPath).isSome := by
          rw [h2, look_write_self]
          rfl
        exact reassembleUpTo_skip _ _ h3

/-- Witness for C4 at a concrete store: the monolithic file is present, so
reassembly changes nothing, and a second run is a no-op. -/
theorem reassembly_idempotent_witness :
    ((FS.mk [(npyPath, [7])]).look npyPath).isSome ∧
    reassemble (FS.mk [(npyPath, [7])]) = FS.mk [(npyPath, [7])] ∧
    reassemble (reassemble fsFrag) = reassemble fsFrag := by
  refine ⟨by decide, ?_, ?_⟩
  · exact (reassembly_idempotent (FS.mk [(npyPath, [7])])).1 (by decide)
  · exact (reassembly_idempotent fsFrag).2

/-! ### C2: interrupted reassembly -/

/-- C2 counterexample.  An interrupted reassembly run (here: stopped after
writing the first of the two fragments of `fsFrag`) leaves the target file
present with the partial bytes `[1, 2]`, which is neither "fully absent" nor
the complete content `[1, 2, 3, 4]` of a successful run; moreover a
subsequent run skips reassembly because the target exists, treating the
partial file exactly like a successful one.  The claimed
temporary-path-plus-rename (or delete-on-failure) behaviour is absent from
src/app.py lines 184-188, which open the target path itself with mode
`"wb"`. -/
theorem reassembly_partial_file_cex :
    (reassembleUpTo fsFrag 1).look npyPath = some [1, 2] ∧
    (reassemble fsFrag).look npyPath = some [1, 2, 3, 4] ∧
    [1, 2] ≠ [1, 2, 3, 4] ∧
    reassemble (reassembleUpTo fsFrag 1) = reassembleUpTo fsFrag 1 := by
  refine ⟨by decide, by decide, by decide, by decide⟩

/-- C2 as amended.  The reassembly loop writes directly to the target path:
a run interrupted after `k` fragments leaves the target file present and
holding the concatenation of the first `k` fragments' bytes, and any later
reassembly run skips (its existence check passes), so an interrupted run is
indistinguishable from success to the rest of the load path. -/
theorem reassembly_interrupted_leaves_partial (fs : FS) (k : Nat)
    (hn : fs.look npyPath = none) (hfr : fragNames fs ≠ []) :
    (reassembleUpTo fs k).look npyPath =
      some (catBytes fs ((fragNames fs).take k)) ∧
    reassemble (reassembleUpTo fs k) = reassembleUpTo fs k := by
  have he := reassembleUpTo_write fs k hn hfr
  constructor
  · rw [he]
    exact look_write_self ..
  · have hs : ((reassembleUpTo fs k).look npyPath).isSome := by
      rw [he, look_write_self]
      rfl
    exact reassembleUpTo_skip _ _ hs

/-- Witness for the amended C2 at the concrete two-fragment store. -/
theorem reassembly_interrupted_leaves_partial_witness :
    fsFrag.look npyPath = none ∧ fragNames fsFrag ≠ [] ∧
    ((reassembleUpTo fsFrag 1).look npyPath =
        some (catBytes fsFrag ((fragNames fsFrag).take 1)) ∧
      reassemble (reassembleUpTo fsFrag 1) = reassembleUpTo fsFrag 1) := by
  exact ⟨by decide, by decide,
    reassembly_interrupted_leaves_partial fsFrag 1 (by decide) (by decide)⟩

/-! ### C5: missing store -/

/-- C5.  When the store is entirely absent — no monolithic matrix file, no
fragments, and no `chimera_full.kv` header — loading fails with the
missing-store error (`st.error` + `st.stop`, src/app.py lines 190-192): the
function never returns a handle, so no query is possible.  The code keys this
check on the header file `chimera_full.kv`; with the whole store absent the
check fires before the library load is ever attempted, and the failure is
distinct from the `loadFailed` constructor by type. -/
theorem load_missing_store_error (fs : FS)
    (hm : fs.look modelPath = none) (hn : fs.look npyPath = none)
    (hfr : (fs.files.map Prod.fst).filter (fun n => startsWithB n partsPre) = []) :
    loadModel fs = .error .missingStore := by
  have h1 : fragNames fs = [] := by
    unfold fragNames
    rw [hfr]
    rfl
  have h2 : reassemble fs = fs := by
    unfold reassemble reassembleUpTo
    rw [if_pos hn]
    simp [h1]
  simp [loadModel, h2, hm]

/-- Witness for C5 at the empty filesystem. -/
theorem load_missing_store_error_witness :
    (FS.mk []).look modelPath = none ∧ (FS.mk []).look npyPath = none ∧
    ((FS.mk []).files.map Prod.fst).filter (fun n => startsWithB n partsPre) = [] ∧
    loadModel (FS.mk []) = .error .missingStore := by
  exact ⟨by decide, by decide, by decide,
    load_missing_store_error (FS.mk []) (by decide) (by decide) (by decide)⟩

/-! ### C3: byte-exact reassembly in ordinal order -/

instance : IsTrans String strLe :=
  ⟨fun _ _ _ h1 h2 => le_trans h1 h2⟩

instance : IsTotal String strLe :=
  ⟨fun a b => le_total a.data b.data⟩

instance : IsAntisymm String strLe := by
  constructor
  intro a b h1 h2
  cases a
  cases b
  congr 1
  exact le_antisymm h1 h2

lemma digitChar_lt {d e : Nat} (h : d < e) (he : e ≤ 9) :
    digitChar d < digitChar e := by
  interval_cases e <;> interval_cases d <;> decide

lemma lex_append_left (l : List Char) {a b : List Char}
    (h : List.Lex (· < ·) a b) : List.Lex (· < ·) (l ++ a) (l ++ b) := by
  induction l with
  | nil => exact h
  | cons c t ih => exact List.Lex.cons ih

lemma threeDigit_lex {i j : Nat} (hij : i < j) (hj : j < 1000) :
    List.Lex (· < ·) (threeDigit i).data (threeDigit j).data := by
  show List.Lex (· < ·)
    [digitChar (i / 100), digitChar (i / 10 % 10), digitChar (i % 10)]
    [digitChar (j / 100), digitChar (j / 10 % 10), digitChar (j % 10)]
  rcases Nat.lt_trichotomy (i / 100) (j / 100) with h1 | h1 | h1
  · exact List.Lex.rel (digitChar_lt h1 (by omega))
  · rw [h1]
    apply List.Lex.cons
    rcases Nat.lt_trichotomy (i / 10 % 10) (j / 10 % 10) with h2 | h2 | h2
    · exact List.Lex.rel (digitChar_lt h2 (by omega))
    · rw [h2]
      apply List.Lex.cons
      exact List.Lex.rel (digitChar_lt (show i % 10 < j % 10 by omega) (by omega))
    · omega
  · omega

lemma partName_data_lt {i j : Nat} (hij : i < j) (hj : j < 1000) :
    (partName i).data < (partName j).data := by
  show List.Lex (· < ·) (partName i).data (partName j).data
  unfold partName
  rw [String.data_append, String.data_append]
  exact lex_append_left _ (threeDigit_lex hij hj)

lemma sorted_partNames (n : Nat) (hn : n ≤ 1000) :
    List.Sorted strLe ((List.range n).map partName) := by
  rw [List.Sorted, List.pairwise_map]
  have h := List.Pairwise.and_mem.mp (List.pairwise_lt_range n)
  refine h.imp ?_
  rintro i j ⟨hi, hj, hij⟩
  exact le_of_lt (partName_data_lt hij (by
    have := List.mem_range.mp hj
    omega))

lemma catBytes_map_partName (fs : FS) (c : Nat → List Nat) (l : List Nat)
    (h : ∀ i ∈ l, fs.look (partName i) = some (c i)) :
    catBytes fs (l.map partName) = l.flatMap c := by
  induction l with
  | nil => rfl
  | cons x xs ih =>
    have hx : readBytes fs (partName x) = c x := by
      unfold readBytes
      rw [h x (List.mem_cons_self x xs)]
      rfl
    simp only [List.map_cons, catBytes, List.flatMap_cons] at *
    rw [hx, ih (fun i hi => h i (List.mem_cons_of_mem x hi))]

/-- C3.  When the monolithic matrix file is absent and the store's fragment
files are exactly the `<target>.part-<NNN>` family with zero-padded ordinals
`0 .. n-1` (the convention of spec section 6, `n ≤ 1000` so three digits
suffice), reassembly sorts the discovered names into ordinal order — the
code's string sort agrees with ordinal order on equal-width zero-padded
names — and writes the in-order concatenation of the fragments' bytes, with
no transformation, to the target path. -/
theorem reassembly_byte_exact (fs : FS) (n : Nat) (c : Nat → List Nat)
    (hn : n ≤ 1000) (hpos : 0 < n)
    (habs : fs.look npyPath = none)
    (hnames : List.Perm
      ((fs.files.map Prod.fst).filter (fun s => startsWithB s partsPre))
      ((List.range n).map partName))
    (hread : ∀ i ∈ List.range n, fs.look (partName i) = some (c i)) :
    (reassemble fs).look npyPath = some ((List.range n).flatMap c) := by
  have hsorted1 : List.Sorted strLe (fragNames fs) :=
    List.sorted_insertionSort strLe _
  have hperm : List.Perm (fragNames fs) ((List.range n).map partName) :=
    (List.perm_insertionSort strLe _).trans hnames
  have heq : fragNames fs = (List.range n).map partName :=
    List.eq_of_perm_of_sorted hperm hsorted1 (sorted_partNames n hn)
  have hne : fragNames fs ≠ [] := by
    rw [heq]
    simp only [ne_eq, List.map_eq_nil_iff, List.range_eq_nil]
    omega
  unfold reassemble
  rw [reassembleUpTo_write fs _ habs hne, look_write_self, List.take_length]
  rw [heq, catBytes_map_partName fs c _ hread]

/-- Witness for C3: spec example 3 with fragments `part-000 = [1, 2]` and
`part-001 = [3, 4]`; the reassembled target is `[1, 2] ++ [3, 4]`. -/
theorem reassembly_byte_exact_witness :
    (2 : Nat) ≤ 1000 ∧ (0 : Nat) < 2 ∧
    fsFrag.look npyPath = none ∧
    List.Perm
      ((fsFrag.files.map Prod.fst).filter (fun s => startsWithB s partsPre))
      ((List.range 2).map partName) ∧
    (∀ i ∈ List.range 2,
      fsFrag.look (partName i) = some (if i = 0 then [1, 2] else [3, 4])) ∧
    (reassemble fsFrag).look npyPath =
      some ((List.range 2).flatMap (fun i => if i = 0 then [1, 2] else [3, 4])) := by
  refine ⟨by decide, by decide, by decide, by decide, by decide, ?_⟩
  exact reassembly_byte_exact fsFrag 2 (fun i => if i = 0 then [1, 2] else [3, 4])
    (by decide) (by decide) (by decide) (by decide) (by decide)

/-! ### Query-side lemmas -/

instance (score : String → ℚ) : IsTotal (Nat × String) (simRank score) := by
  constructor
  intro p q
  unfold simRank
  rcases lt_trichotomy (score p.2) (score q.2) with h | h | h
  · right
    left
    exact h
  · rcases Nat.le_total p.1 q.1 with h2 | h2
    · left
      right
      exact ⟨h, h2⟩
    · right
      right
      exact ⟨h.symm, h2⟩
  · left
    left
    exact h

instance (score : String → ℚ) : IsTrans (Nat × String) (simRank score) := by
  constructor
  intro p q r hpq hqr
  unfold simRank at *
  rcases hpq with h1 | ⟨h1, h1i⟩ <;> rcases hqr with h2 | ⟨h2, h2i⟩
  · exact Or.inl (lt_trans h2 h1)
  · exact Or.inl (h2 ▸ h1)
  · exact Or.inl (h1 ▸ h2)
  · exact Or.inr ⟨h1.trans h2, Nat.le_trans h1i h2i⟩

lemma withIdx_length (l : List String) (k : Nat) :
    (withIdx l k).length = l.length := by
  induction l generalizing k with
  | nil => rfl
  | cons w ws ih => simp [withIdx, ih]

lemma mem_withIdx {l : List String} {w : String} (k : Nat) (h : w ∈ l) :
    ∃ i, (i, w) ∈ withIdx l k := by
  induction l generalizing k with
  | nil => cases h
  | cons x xs ih =>
    rcases List.mem_cons.mp h with rfl | h2
    · exact ⟨k, List.mem_cons_self _ _⟩
    · obtain ⟨i, hi⟩ := ih (k + 1) h2
      exact ⟨i, List.mem_cons_of_mem _ hi⟩

/-- The list that `find_chimera` calls `filtered` (src/app.py lines 219-220):
the `topn=5` library results with the two input tokens removed. -/
def survivors (m : Model) (a b : String) : List (String × ℚ) :=
  (mostSimilar (m.score a b) m.vocab 5).filter (fun p => p.1 != a && p.1 != b)

lemma findChimera_eq (m : Model) (a b : String)
    (ha : a ∈ m.vocab) (hb : b ∈ m.vocab) (hf : m.fails = false) :
    findChimera m a b =
      ((survivors m a b).head?.map Prod.fst, (survivors m a b).take 3) := by
  unfold findChimera
  rw [if_pos ha, if_pos hb, hf]
  show (match survivors m a b with
    | [] => ((none : Option String), ([] : List (String × ℚ)))
    | p :: rest => (some p.1, (p :: rest).take 3)) = _
  cases hs : survivors m a b with
  | nil => rfl
  | cons p rest => rfl

lemma findChimera_unknown (m : Model) (a b : String)
    (h : a ∉ m.vocab ∨ b ∉ m.vocab) : findChimera m a b = (none, []) := by
  unfold findChimera
  rcases h with h | h
  · rw [if_neg h]
  · by_cases ha : a ∈ m.vocab
    · rw [if_pos ha, if_neg h]
    · rw [if_neg ha]

lemma findChimera_of_fails (m : Model) (a b : String)
    (h : m.fails = true) : findChimera m a b = (none, []) := by
  unfold findChimera
  by_cases ha : a ∈ m.vocab
  · by_cases hb : b ∈ m.vocab
    · rw [if_pos ha, if_pos hb, h]
      rfl
    · rw [if_pos ha, if_neg hb]
  · rw [if_neg ha]

lemma mostSimilar_length (score : String → ℚ) (vocab : List String) (topn : Nat) :
    (mostSimilar score vocab topn).length = min topn vocab.length := by
  unfold mostSimilar
  rw [List.length_map, List.length_take, List.length_insertionSort, withIdx_length]

lemma mostSimilar_sorted (score : String → ℚ) (vocab : List String) (topn : Nat) :
    List.Sorted (fun p q : String × ℚ => q.2 ≤ p.2)
      (mostSimilar score vocab topn) := by
  unfold mostSimilar
  have hs : List.Pairwise (simRank score)
      ((withIdx vocab 0).insertionSort (simRank score)) :=
    List.sorted_insertionSort (simRank score) _
  have ht := hs.sublist (List.take_sublist topn _)
  refine ht.map _ ?_
  intro p q h
  rcases h with h | ⟨h, _⟩
  · exact le_of_lt h
  · exact le_of_eq h.symm

lemma mostSimilar_score_faithful (score : String → ℚ) (vocab : List String)
    (topn : Nat) {p : String × ℚ} (hp : p ∈ mostSimilar score vocab topn) :
    p.2 = score p.1 := by
  unfold mostSimilar at hp
  obtain ⟨x, _, rfl⟩ := List.mem_map.mp hp
  rfl

lemma mostSimilar_topk (score : String → ℚ) (vocab : List String) (topn : Nat)
    {p : String × ℚ} (hp : p ∈ mostSimilar score vocab topn)
    {w : String} (hw : w ∈ vocab)
    (hout : w ∉ (mostSimilar score vocab topn).map Prod.fst) :
    score w ≤ p.2 := by
  unfold mostSimilar at hp hout
  set S := (withIdx vocab 0).insertionSort (simRank score) with hS
  obtain ⟨x, hx, rfl⟩ := List.mem_map.mp hp
  obtain ⟨i, hi⟩ := mem_withIdx 0 hw
  have hiS : (i, w) ∈ S := by
    rw [hS, List.mem_insertionSort]
    exact hi
  have hnotin : (i, w) ∉ S.take topn := by
    intro hmem
    apply hout
    rw [List.map_map]
    exact List.mem_map.mpr ⟨(i, w), hmem, rfl⟩
  have hdrop : (i, w) ∈ S.drop topn := by
    rcases List.mem_append.mp ((List.take_append_drop topn S) ▸ hiS) with h | h
    · exact absurd h hnotin
    · exact h
  have hpair : List.Pairwise (simRank score) (S.take topn ++ S.drop topn) := by
    rw [List.take_append_drop]
    exact List.sorted_insertionSort (simRank score) _
  have hrel := (List.pairwise_append.mp hpair).2.2 x hx (i, w) hdrop
  rcases hrel with h | ⟨h, _⟩
  · exact le_of_lt h
  · exact le_of_eq h.symm

/-! ### Query-side fixtures -/

/-- Spec example 1: tokens "king", "woman", "man", "queen", with scores under
which the two inputs rank highest and "queen" is the best genuine result. -/
def mDemo : Model :=
  ⟨["king", "woman", "man", "queen"],
    fun _ _ w =>
      if w = "king" then 10 else if w = "queen" then 9
      else if w = "woman" then 8 else 1,
    false⟩

/-- A pathologically small store: only the two query tokens exist. -/
def mTiny : Model := ⟨["a", "b"], fun _ _ _ => 0, false⟩

/-- A store that knows "b" but not "a". -/
def mOnlyB : Model := ⟨["b"], fun _ _ _ => 0, false⟩

/-- A store that knows "a" but not "b". -/
def mOnlyA : Model := ⟨["a"], fun _ _ _ => 0, false⟩

/-! ### C6: input tokens never returned -/

/-- C6.  For known input tokens, no returned result — neither the headline
result word nor any entry of the similar-words list — equals either input
token: the filter of src/app.py lines 219-220 removes exact (case-sensitive)
matches of `word_a` and `word_b` before anything is returned. -/
theorem find_chimera_excludes_inputs (m : Model) (a b : String)
    (ha : a ∈ m.vocab) (hb : b ∈ m.vocab) :
    (∀ p ∈ (findChimera m a b).2, p.1 ≠ a ∧ p.1 ≠ b) ∧
    (∀ w, (findChimera m a b).1 = some w → w ≠ a ∧ w ≠ b) := by
  have hmem : ∀ p ∈ survivors m a b, p.1 ≠ a ∧ p.1 ≠ b := by
    intro p hp
    have h2 := (List.mem_filter.mp hp).2
    simpa [bne_iff_ne] using h2
  cases hf : m.fails with
  | true =>
    rw [findChimera_of_fails m a b hf]
    exact ⟨fun p hp => absurd hp (List.not_mem_nil p), fun w hw => by cases hw⟩
  | false =>
    have he := findChimera_eq m a b ha hb hf
    constructor
    · intro p hp
      rw [he] at hp
      exact hmem p (List.mem_of_mem_take hp)
    · intro w hw
      rw [he] at hw
      cases hs : survivors m a b with
      | nil => rw [hs] at hw; cases hw
      | cons p rest =>
        rw [hs] at hw
        have : p.1 = w := by simpa using hw
        rw [← this]
        exact hmem p (hs ▸ List.mem_cons_self p rest)

/-- Witness for C6 at spec example 1: both inputs are known, "king" and
"woman" never appear in the output. -/
theorem find_chimera_excludes_inputs_witness :
    "king" ∈ mDemo.vocab ∧ "woman" ∈ mDemo.vocab ∧
    ((∀ p ∈ (findChimera mDemo "king" "woman").2, p.1 ≠ "king" ∧ p.1 ≠ "woman") ∧
      (∀ w, (findChimera mDemo "king" "woman").1 = some w →
        w ≠ "king" ∧ w ≠ "woman")) := by
  exact ⟨by decide, by decide,
    find_chimera_excludes_inputs mDemo "king" "woman" (by decide) (by decide)⟩

/-! ### C1: unknown tokens -/

/-- C1 counterexample.  The failure value does not identify which token was
unknown: the store `mOnlyB` (where "a" is the unknown token) and the store
`mOnlyA` (where "b" is the unknown token) produce the identical failure
output `(None, [])` for the same query, so no consumer of the return value
can recover which token(s) failed — there is no `UnknownTokenError` carrying
the bad token, only the shared sentinel (src/app.py lines 204-207). -/
theorem find_chimera_unknown_sentinel_cex :
    findChimera mOnlyB "a" "b" = (none, []) ∧
    findChimera mOnlyA "a" "b" = (none, []) ∧
    ("a" ∉ mOnlyB.vocab ∧ "b" ∈ mOnlyB.vocab) ∧
    ("a" ∈ mOnlyA.vocab ∧ "b" ∉ mOnlyA.vocab) := by
  refine ⟨by decide, by decide, by decide, by decide⟩

/-- C1 as amended.  For every query in which at least one input token is
absent from the vocabulary, the query fails with the sentinel `(None, [])` —
no partial result is returned, and the validity of the other token does not
change the failure — but the sentinel does not say which token was
unknown. -/
theorem find_chimera_unknown_failure (m : Model) (a b : String)
    (h : a ∉ m.vocab ∨ b ∉ m.vocab) : findChimera m a b = (none, []) :=
  findChimera_unknown m a b h

/-- Witness for the amended C1: "zzznotaword" is unknown to the demo store,
and the query fails with the sentinel although "king" is valid. -/
theorem find_chimera_unknown_failure_witness :
    ("king" ∈ mDemo.vocab ∧ "zzznotaword" ∉ mDemo.vocab) ∧
    findChimera mDemo "king" "zzznotaword" = (none, []) := by
  exact ⟨by decide,
    find_chimera_unknown_failure mDemo "king" "zzznotaword" (Or.inr (by decide))⟩

/-! ### C9: total interface, collapsed failures -/

/-- C9.  `find_chimera` is total at its interface — in this embedding it is a
function, so it always returns a `(result_word, list)` pair and can propagate
no exception (the source wraps the library call in a bare
`try .. except Exception`, src/app.py lines 210-227) — and both failure
modes collapse to the same sentinel: an unknown token and an exception
inside the similarity computation each yield exactly `(None, [])`, so callers
cannot tell them apart. -/
theorem find_chimera_total_collapse (m : Model) (a b : String) :
    ((a ∉ m.vocab ∨ b ∉ m.vocab) → findChimera m a b = (none, [])) ∧
    (m.fails = true → findChimera m a b = (none, [])) :=
  ⟨findChimera_unknown m a b, findChimera_of_fails m a b⟩

/-- Witness for C9: the unknown-token query and the raising computation both
produce the sentinel on concrete stores. -/
theorem find_chimera_total_collapse_witness :
    ("a" ∉ mOnlyB.vocab ∨ "b" ∉ mOnlyB.vocab) ∧
    findChimera mOnlyB "a" "b" = (none, []) ∧
    (Model.mk ["a", "b"] (fun _ _ _ => 0) true).fails = true ∧
    findChimera (Model.mk ["a", "b"] (fun _ _ _ => 0) true) "a" "b" = (none, []) := by
  refine ⟨Or.inl (by decide), ?_, rfl, ?_⟩
  · exact (find_chimera_total_collapse mOnlyB "a" "b").1 (Or.inl (by decide))
  · exact (find_chimera_total_collapse
      (Model.mk ["a", "b"] (fun _ _ _ => 0) true) "a" "b").2 rfl

/-! ### C10: headline word heads the list -/

/-- C10.  Whenever `find_chimera` returns a non-`None` result word, that word
is the first element of the accompanying similar-words list
(`filtered[0][0]` versus `filtered[:3]`, src/app.py line 223), and the list
never holds more than 3 entries. -/
theorem find_chimera_head_consistency (m : Model) (a b : String) (w : String)
    (l : List (String × ℚ)) (h : findChimera m a b = (some w, l)) :
    l.head?.map Prod.fst = some w ∧ l.length ≤ 3 := by
  unfold findChimera at h
  by_cases ha : a ∈ m.vocab
  · rw [if_pos ha] at h
    by_cases hb : b ∈ m.vocab
    · rw [if_pos hb] at h
      cases hf : m.fails with
      | true => rw [hf] at h; simp at h
      | false =>
        rw [hf] at h
        simp only [Bool.false_eq_true, if_false] at h
        revert h
        show (match survivors m a b with
          | [] => ((none : Option String), ([] : List (String × ℚ)))
          | p :: rest => (some p.1, (p :: rest).take 3)) = (some w, l) → _
        cases hs : survivors m a b with
        | nil => intro h; simp at h
        | cons p rest =>
          intro h
          have hw : p.1 = w := by simpa using congrArg Prod.fst h
          have hl : (p :: rest).take 3 = l := by simpa using congrArg Prod.snd h
          constructor
          · rw [← hl, ← hw]
            rfl
          · rw [← hl]
            exact List.length_take_le 3 _
    · rw [if_neg hb] at h
      simp at h
  · rw [if_neg ha] at h
    simp at h

/-- Witness for C10 at spec example 1: the headline word "queen" heads the
returned list, which has at most 3 entries. -/
theorem find_chimera_head_consistency_witness :
    findChimera mDemo "king" "woman" =
      (some "queen", [("queen", 9), ("man", 1)]) ∧
    ([("queen", (9 : ℚ)), ("man", 1)].head?.map Prod.fst = some "queen" ∧
      [("queen", (9 : ℚ)), ("man", 1)].length ≤ 3) := by
  refine ⟨by decide, ?_⟩
  exact find_chimera_head_consistency mDemo "king" "woman" "queen"
    [("queen", 9), ("man", 1)] (by decide)

/-! ### C7: survivor truncation and the zero-survivor case -/

/-- C7 counterexample.  In the pathologically small store `mTiny`, whose
vocabulary is exactly the two (known) query tokens, every candidate is
filtered out and `find_chimera` returns `(None, [])` — which is the value the
function's own docstring designates as its error value ("(None, []) if
error", src/app.py line 201) and which the caller renders as the error box
(src/app.py lines 261-282); it is identical to the output of an
unknown-token query, so returning zero results is not distinguishable from
an error, contrary to the claim. -/
theorem find_chimera_zero_survivors_cex :
    "a" ∈ mTiny.vocab ∧ "b" ∈ mTiny.vocab ∧
    findChimera mTiny "a" "b" = (none, []) ∧
    "zzznotaword" ∉ mTiny.vocab ∧
    findChimera mTiny "zzznotaword" "b" = findChimera mTiny "a" "b" := by
  refine ⟨by decide, by decide, by decide, by decide, by decide⟩

/-- C7 as amended.  For known tokens and a non-raising similarity call, the
engine returns the first 3 survivors after exclusion of the input tokens;
when fewer than 3 but at least one survive it returns as many as exist
(`filtered[:3]`, not an error); but when zero survive it returns
`(None, [])`, the function's documented error value, indistinguishable from
an unknown-token failure. -/
theorem find_chimera_survivor_truncation (m : Model) (a b : String)
    (ha : a ∈ m.vocab) (hb : b ∈ m.vocab) (hf : m.fails = false) :
    findChimera m a b =
      ((survivors m a b).head?.map Prod.fst, (survivors m a b).take 3) ∧
    ((survivors m a b).take 3).length = min 3 (survivors m a b).length ∧
    (survivors m a b = [] → findChimera m a b = (none, [])) := by
  have he := findChimera_eq m a b ha hb hf
  refine ⟨he, List.length_take .., ?_⟩
  intro hs
  rw [he, hs]
  rfl

/-- Witness for the amended C7 at spec example 1: two survivors exist, both
are returned (fewer than 3), and the headline word is the first of them. -/
theorem find_chimera_survivor_truncation_witness :
    "king" ∈ mDemo.vocab ∧ "woman" ∈ mDemo.vocab ∧ mDemo.fails = false ∧
    (findChimera mDemo "king" "woman" =
        ((survivors mDemo "king" "woman").head?.map Prod.fst,
          (survivors mDemo "king" "woman").take 3) ∧
      ((survivors mDemo "king" "woman").take 3).length =
        min 3 (survivors mDemo "king" "woman").length ∧
      (survivors mDemo "king" "woman" = [] →
        findChimera mDemo "king" "woman" = (none, []))) := by
  exact ⟨by decide, by decide, rfl,
    find_chimera_survivor_truncation mDemo "king" "woman" (by decide) (by decide) rfl⟩

/-! ### C8: over-fetch by the fixed margin of 2, ranked by descending score -/

/-- C8.  For known tokens and a non-raising similarity call, the candidate
list the engine works from is `most_similar(topn=5)` with `5 = 3 + 2` — the
3 results it may return plus the fixed margin of 2 for the input tokens
(src/app.py lines 213-216): the candidates are the `3 + 2` highest-scoring
rows (every vocabulary row left out scores no higher than any candidate),
ranked by descending score and carrying each row's own score, and
`find_chimera` then filters the two input tokens out of exactly this list and
returns the first 3 survivors. -/
theorem find_chimera_overfetch_ranking (m : Model) (a b : String)
    (ha : a ∈ m.vocab) (hb : b ∈ m.vocab) (hf : m.fails = false) :
    (mostSimilar (m.score a b) m.vocab (3 + 2)).length =
      min (3 + 2) m.vocab.length ∧
    List.Sorted (fun p q : String × ℚ => q.2 ≤ p.2)
      (mostSimilar (m.score a b) m.vocab (3 + 2)) ∧
    (∀ p ∈ mostSimilar (m.score a b) m.vocab (3 + 2), p.2 = m.score a b p.1) ∧
    (∀ p ∈ mostSimilar (m.score a b) m.vocab (3 + 2),
      ∀ w ∈ m.vocab, w ∉ (mostSimilar (m.score a b) m.vocab (3 + 2)).map Prod.fst →
        m.score a b w ≤ p.2) ∧
    survivors m a b =
      (mostSimilar (m.score a b) m.vocab (3 + 2)).filter
        (fun p => p.1 != a && p.1 != b) ∧
    findChimera m a b =
      ((survivors m a b).head?.map Prod.fst, (survivors m a b).take 3) := by
  refine ⟨mostSimilar_length .., mostSimilar_sorted .., ?_, ?_, rfl,
    findChimera_eq m a b ha hb hf⟩
  · intro p hp
    exact mostSimilar_score_faithful (m.score a b) m.vocab (3 + 2) hp
  · intro p hp w hw hout
    exact mostSimilar_topk (m.score a b) m.vocab (3 + 2) hp hw hout

/-- Witness for C8 at spec example 1. -/
theorem find_chimera_overfetch_ranking_witness :
    "king" ∈ mDemo.vocab ∧ "woman" ∈ mDemo.vocab ∧ mDemo.fails = false ∧
    ((mostSimilar (mDemo.score "king" "woman") mDemo.vocab (3 + 2)).length =
        min (3 + 2) mDemo.vocab.length ∧
      List.Sorted (fun p q : String × ℚ => q.2 ≤ p.2)
        (mostSimilar (mDemo.score "king" "woman") mDemo.vocab (3 + 2)) ∧
      (∀ p ∈ mostSimilar (mDemo.score "king" "woman") mDemo.vocab (3 + 2),
        p.2 = mDemo.score "king" "woman" p.1) ∧
      (∀ p ∈ mostSimilar (mDemo.score "king" "woman") mDemo.vocab (3 + 2),
        ∀ w ∈ mDemo.vocab,
          w ∉ (mostSimilar (mDemo.score "king" "woman") mDemo.vocab (3 + 2)).map
              Prod.fst →
            mDemo.score "king" "woman" w ≤ p.2) ∧
      survivors mDemo "king" "woman" =
        (mostSimilar (mDemo.score "king" "woman") mDemo.vocab (3 + 2)).filter
          (fun p => p.1 != "king" && p.1 != "woman") ∧
      findChimera mDemo "king" "woman" =
        ((survivors mDemo "king" "woman").head?.map Prod.fst,
          (survivors mDemo "king" "woman").take 3)) := by
  exact ⟨by decide, by decide, rfl,
    find_chimera_overfetch_ranking mDemo "king" "woman" (by decide) (by decide) rfl⟩
